import Mathlib

/-!
Verification of the review-scheduling and error-integration core of the
English-teacher multi-agent application, together with two fragments of its
frontend state management.

The repository ships the React/Redux frontend; the backend core (SRS engine,
progress tracker, trigger aggregator, daily schedule builder, error-integration
engine) is described by the design documents but its implementation files are
not part of the source tree.  Those components are therefore modelled from the
specification text, faithfully to its words; the frontend reducers and helpers
are shallowly embedded from the TypeScript sources
(`src/frontend/src/store/authSlice.ts` schedule slice,
`src/frontend/src/components/progress/WeeklyReport.tsx`).

Numbers: TypeScript / Python numeric values are modelled as `ℚ` (exact
rationals); day counts as `ℕ`; dates as `ℤ` day numbers.
-/

namespace EngCore

/-- Modelled from the spec: learning pillars of an `Item`
(`pillar ∈ {vocabulary, grammar, pronunciation}`, §3). The backend catalog code
is not in the source tree. -/
inductive Pillar
  | vocabulary
  | grammar
  | pronunciation
deriving DecidableEq, Repr

/-- Modelled from the spec: mastery classification of a progress record
(`masteryState ∈ {new, learning, mastered}`, §3). -/
inductive MasteryState
  | new
  | learning
  | mastered
deriving DecidableEq, Repr

/-- Modelled from the spec: `ProgressRecord`, one per (learner, item) (§3).
The backend progress-tracker code is not in the source tree.  Fields follow the
spec's list: `easeFactor` (≥ 1.3, starts at 2.5), `intervalDays` (starts at 0),
`nextReviewDate`, `lastPracticedAt`, `recentUseTimestamps` (7-day window),
`accuracyHistory` (last 10 attempts), `masteryState`. -/
structure ProgressRecord where
  easeFactor : ℚ
  intervalDays : ℕ
  nextReviewDate : ℤ
  lastPracticedAt : ℤ
  recentUseTimestamps : List ℤ
  accuracyHistory : List ℚ
  masteryState : MasteryState
deriving DecidableEq, Repr

/-- Modelled from the spec: the 1.3 floor of the ease factor (§3, §4.1). -/
def efFloor : ℚ := 13 / 10

/-- Modelled from the spec: result of the SRS engine,
`{intervalDays, easeFactor, nextReviewDate}` (§4.1). -/
structure SrsResult where
  intervalDays : ℕ
  easeFactor : ℚ
  nextReviewDate : ℤ
deriving DecidableEq, Repr

/-- Modelled from the spec: the ease-factor penalty for a failed attempt,
"decreases by up to 0.3 (penalty proportional to how far below 3)" (§4.1).
The exact curve is left open by §9; we pick the proportional choice
`(3 - quality) / 10`, i.e. 0.1 / 0.2 / 0.3 at quality 2 / 1 / 0. -/
def failPenalty (quality : ℕ) : ℚ := ((3 - quality : ℕ) : ℚ) / 10

/-- Modelled from the spec: the ease-factor bonus for a successful attempt,
"+0.1 for quality 5, +0.05 for quality 4, 0 for quality 3" (§4.1). -/
def successBonus (quality : ℕ) : ℚ :=
  if quality = 5 then 1 / 10 else if quality = 4 then 1 / 20 else 0

/-- Modelled from the spec: the SRS engine's
`nextState(record, quality) → {intervalDays, easeFactor, nextReviewDate}`
(§4.1, SM-2 variant); the backend file `srs_algorithm.py` named by the planning
notes is not in the source tree.
* quality < 3: `intervalDays = 1`, ease factor decreased and floored at 1.3;
* quality ≥ 3: interval 0 → 1 (first success, previous interval treated as 0),
  interval 1 → 6, otherwise `round(previousInterval × easeFactor)`;
  ease factor increased by the success bonus, floored at 1.3;
* `nextReviewDate = now + intervalDays`. -/
def nextState (r : ProgressRecord) (quality : ℕ) (now : ℤ) : SrsResult :=
  if quality < 3 then
    { intervalDays := 1
      easeFactor := max efFloor (r.easeFactor - failPenalty quality)
      nextReviewDate := now + 1 }
  else
    let newInterval : ℕ :=
      if r.intervalDays = 0 then 1
      else if r.intervalDays = 1 then 6
      else (round ((r.intervalDays : ℚ) * r.easeFactor)).toNat
    { intervalDays := newInterval
      easeFactor := max efFloor (r.easeFactor + successBonus quality)
      nextReviewDate := now + (newInterval : ℤ) }

/-- Modelled from the spec: one SRS attempt folded back into the progress
record (the progress tracker "applies SRS Engine results", §2, §4.2). -/
def applyAttempt (r : ProgressRecord) (quality : ℕ) (now : ℤ) : ProgressRecord :=
  let res := nextState r quality now
  { r with
    easeFactor := res.easeFactor
    intervalDays := res.intervalDays
    nextReviewDate := res.nextReviewDate
    lastPracticedAt := now }

/-- Modelled from the spec: a whole history of attempts applied in order
through the SRS engine (§8, "arbitrary attempt histories"). -/
def applyAttempts (r : ProgressRecord) (qs : List ℕ) (now : ℤ) : ProgressRecord :=
  qs.foldl (fun s q => applyAttempt s q now) r

/-- Modelled from the spec: the record states after each attempt of a
history, in order (§8, interval traces across consecutive attempts). -/
def attemptStates (r : ProgressRecord) (qs : List ℕ) (now : ℤ) : List ProgressRecord :=
  match qs with
  | [] => []
  | q :: rest =>
      let r2 := applyAttempt r q now
      r2 :: attemptStates r2 rest now

/-- Modelled from the spec: the progress tracker's `isDue(record, asOf)`:
`record.nextReviewDate ≤ asOf` (§4.2). -/
def isDue (r : ProgressRecord) (asOf : ℤ) : Bool :=
  decide (r.nextReviewDate ≤ asOf)

/-- Modelled from the spec: the progress tracker's `isLowFrequency(record,
asOf)`: no entry of `recentUseTimestamps` lies within the trailing 7 days and
the item was seen at least once previously (non-empty attempt history, §4.2). -/
def isLowFrequency (r : ProgressRecord) (asOf : ℤ) : Bool :=
  r.recentUseTimestamps.all (fun t => decide (t ≤ asOf - 7)) &&
    !r.accuracyHistory.isEmpty

/-- Modelled from the spec: the progress tracker's `isLowAccuracy(record)`:
the mean of `accuracyHistory` is below 80% (§4.2). -/
def isLowAccuracy (r : ProgressRecord) : Bool :=
  decide (r.accuracyHistory.sum / (r.accuracyHistory.length : ℚ) < 80)

/-- Modelled from the spec: the scheduling triggers of the trigger
aggregator (§4.3). -/
inductive Trigger
  | srs_due
  | low_frequency
  | low_accuracy
deriving DecidableEq, Repr

/-- Modelled from the spec: the trigger aggregator's classification of a
single record into at most one trigger, with strict precedence
`srs_due` > `low_frequency` > `low_accuracy` (§4.3); the backend aggregator
code is not in the source tree. -/
def classify (r : ProgressRecord) (asOf : ℤ) : Option Trigger :=
  if isDue r asOf then some .srs_due
  else if isLowFrequency r asOf then some .low_frequency
  else if isLowAccuracy r then some .low_accuracy
  else none

/-- Modelled from the spec: the trigger aggregator over all of a learner's
records, keyed by item id; items matching no condition are excluded (§4.3). -/
def aggregateTriggers (records : List (ℕ × ProgressRecord)) (asOf : ℤ) :
    List (ℕ × Trigger) :=
  records.filterMap fun p => (classify p.2 asOf).map fun t => (p.1, t)

/-- Modelled from the spec: scheduling priorities (§3). -/
inductive Priority
  | high
  | normal
  | low
deriving DecidableEq, Repr

/-- Modelled from the spec: numeric rank of a priority, high before normal
before low (§4.4, step 1). -/
def prioRank : Priority → ℕ
  | .high => 0
  | .normal => 1
  | .low => 2

/-- Modelled from the spec: scheduling reasons of a `ScheduledReviewItem`
(§3). -/
inductive Reason
  | srs_due
  | low_frequency
  | low_accuracy
  | daily_practice
deriving DecidableEq, Repr

/-- Modelled from the spec: the reason attached to each trigger (§3, §4.3). -/
def triggerReason : Trigger → Reason
  | .srs_due => .srs_due
  | .low_frequency => .low_frequency
  | .low_accuracy => .low_accuracy

/-- Modelled from the spec: priority mapping, `srs_due` and `low_accuracy` →
high; `low_frequency` → normal (§4.3). -/
def triggerPriority : Trigger → Priority
  | .srs_due => .high
  | .low_accuracy => .high
  | .low_frequency => .normal

/-- Modelled from the spec: fixed per-pillar time cost in minutes —
vocabulary 2, grammar 4, pronunciation 3 (§4.4, step 2). -/
def pillarMinutes : Pillar → ℕ
  | .vocabulary => 2
  | .grammar => 4
  | .pronunciation => 3

/-- Modelled from the spec: one entry of the trigger aggregator's output,
an (item, trigger, pillar) tuple together with the record's review date used
for tie-breaking (§4.3, §4.4); the backend scheduler code is not in the
source tree. -/
structure TriggeredItem where
  itemId : ℕ
  pillar : Pillar
  trigger : Trigger
  nextReviewDate : ℤ
deriving DecidableEq, Repr

/-- Modelled from the spec: `ScheduledReviewItem` (§3). -/
structure ScheduledReviewItem where
  itemId : ℕ
  pillar : Pillar
  reason : Reason
  priority : Priority
  estimatedMinutes : ℕ
deriving DecidableEq, Repr

/-- Modelled from the spec: a triggered item rendered as a schedule entry
with its per-pillar estimated minutes (§4.4, step 2). -/
def toScheduled (x : TriggeredItem) : ScheduledReviewItem :=
  { itemId := x.itemId
    pillar := x.pillar
    reason := triggerReason x.trigger
    priority := triggerPriority x.trigger
    estimatedMinutes := pillarMinutes x.pillar }

/-- Modelled from the spec: the sorting key order of the schedule builder —
priority first, then earliest `nextReviewDate`; catalog (input) order is
preserved on full ties by a stable insertion (§4.4, step 1). -/
def schedBefore (a b : TriggeredItem) : Bool :=
  decide (prioRank (triggerPriority a.trigger) < prioRank (triggerPriority b.trigger) ∨
    (prioRank (triggerPriority a.trigger) = prioRank (triggerPriority b.trigger) ∧
      a.nextReviewDate < b.nextReviewDate))

/-- Modelled from the spec: stable insertion used to sort triggered items
(§4.4, step 1). -/
def insertSorted (x : TriggeredItem) : List TriggeredItem → List TriggeredItem
  | [] => [x]
  | y :: ys => if schedBefore y x then y :: insertSorted x ys else x :: y :: ys

/-- Modelled from the spec: deterministic stable sort of the triggered items
(§4.4, step 1). -/
def sortTriggers (l : List TriggeredItem) : List TriggeredItem :=
  l.foldr insertSorted []

/-- Modelled from the spec: greedy acceptance of sorted items while the
cumulative estimated minutes stay within the daily budget; items that do not
fit are deferred, not dropped (§4.4, step 3). -/
def fillGreedy (budget : ℕ) : ℕ → List ScheduledReviewItem → List ScheduledReviewItem
  | _, [] => []
  | used, x :: xs =>
      if used + x.estimatedMinutes ≤ budget then
        x :: fillGreedy budget (used + x.estimatedMinutes) xs
      else fillGreedy budget used xs

/-- Modelled from the spec: a `daily_practice` filler entry built from a
previously-unseen catalog item (§4.4, step 4). -/
def mkDaily (i : ℕ) (p : Pillar) : ScheduledReviewItem :=
  { itemId := i
    pillar := p
    reason := .daily_practice
    priority := .low
    estimatedMinutes := pillarMinutes p }

/-- Modelled from the spec: filling the remaining budget with new-item
`daily_practice` entries from the supplier, respecting the same per-pillar
costs (§4.4, step 4). -/
def fillNew (budget : ℕ) : ℕ → List (ℕ × Pillar) → List ScheduledReviewItem
  | _, [] => []
  | used, (i, p) :: rest =>
      if used + pillarMinutes p ≤ budget then
        mkDaily i p :: fillNew budget (used + pillarMinutes p) rest
      else fillNew budget used rest

/-- Modelled from the spec: the daily schedule builder's
`build(learnerId, triggerSet, dailyGoalMinutes, newItemSupplier)` (§4.4); the
backend scheduler code is not in the source tree.  A zero budget yields an
empty list; a single triggered item is always kept even when it exceeds the
whole budget (mandatory-item completeness, §4.4 edge cases); remaining
headroom is filled from the new-item supplier. -/
def build (triggers : List TriggeredItem) (dailyGoalMinutes : ℕ)
    (newItems : List (ℕ × Pillar)) : List ScheduledReviewItem :=
  if dailyGoalMinutes = 0 then []
  else
    let scheduled := (sortTriggers triggers).map toScheduled
    let reviews :=
      match scheduled with
      | [x] => [x]
      | l => fillGreedy dailyGoalMinutes 0 l
    let used := (reviews.map ScheduledReviewItem.estimatedMinutes).sum
    reviews ++ fillNew dailyGoalMinutes used newItems

/-- Modelled from the spec: an attempt outcome — correctness plus, where
available, a 0–100 accuracy score (§4.2). -/
structure Outcome where
  correct : Bool
  accuracyScore : Option ℕ
deriving DecidableEq, Repr

/-- Modelled from the spec: mapping of an outcome to an SM-2 quality 0–5
(§4.2).  §9 leaves the exact mapping open; we pick the linear map
`score × 5 / 100` clamped by correctness (correct ≥ 3, incorrect ≤ 2), with
defaults 4 / 1 when no score is available. -/
def qualityOf (o : Outcome) : ℕ :=
  match o.accuracyScore with
  | some s => if o.correct then max 3 (s * 5 / 100) else min 2 (s * 5 / 100)
  | none => if o.correct then 4 else 1

/-- Modelled from the spec: accuracy value recorded into the history for an
attempt (§4.2); outcomes without a score are recorded as 100 (correct) or 0
(incorrect) — a modelling choice within the spec's latitude. -/
def effectiveAccuracy (o : Outcome) : ℚ :=
  match o.accuracyScore with
  | some s => (s : ℚ)
  | none => if o.correct then 100 else 0

/-- Modelled from the spec: the failures of `recordAttempt` decidable inside
the core — `NotFoundError` for an unknown item, `InvalidOutcomeError` for an
accuracy outside 0–100 (§7). -/
inductive RecordError
  | notFound
  | invalidOutcome
deriving DecidableEq, Repr

/-- Modelled from the spec: a fresh `ProgressRecord` created on first
exposure — ease factor 2.5, interval 0 (§3). -/
def freshRecord (now : ℤ) : ProgressRecord :=
  { easeFactor := 5 / 2, intervalDays := 0, nextReviewDate := now,
    lastPracticedAt := now, recentUseTimestamps := [], accuracyHistory := [],
    masteryState := .new }

/-- Modelled from the spec: the bounded accuracy ring keeps the last `n`
entries (§3). -/
def keepLast (n : ℕ) (l : List ℚ) : List ℚ := l.drop (l.length - n)

/-- Modelled from the spec: "last 3 attempts correct" (§4.2), with an
attempt counted correct when its recorded accuracy is at least 60 — a
modelling choice within the spec's latitude. -/
def lastThreeCorrect (hist : List ℚ) : Bool :=
  decide (3 ≤ hist.length) &&
    (hist.drop (hist.length - 3)).all fun a => decide (60 ≤ a)

/-- Modelled from the spec: the progress store, keyed by (learner, item);
records are never deleted, only superseded by newer saves (§3, §6). -/
def lookupRecord (store : List ((ℕ × ℕ) × ProgressRecord)) (l i : ℕ) :
    Option ProgressRecord :=
  (store.find? fun p => p.1 == (l, i)).map Prod.snd

/-- Modelled from the spec: saving supersedes the previous record (§3). -/
def saveRecord (store : List ((ℕ × ℕ) × ProgressRecord)) (l i : ℕ)
    (r : ProgressRecord) : List ((ℕ × ℕ) × ProgressRecord) :=
  ((l, i), r) :: store

/-- Modelled from the spec: the in-memory update of one record for one
attempt — history and recency appended (bounded), SRS engine invoked,
mastery state recomputed (§4.2). -/
def updatedRecord (r : ProgressRecord) (o : Outcome) (now : ℤ) : ProgressRecord :=
  let hist := keepLast 10 (r.accuracyHistory ++ [effectiveAccuracy o])
  let uses := (r.recentUseTimestamps ++ [now]).filter fun t => decide (now - 7 < t)
  let r2 := applyAttempt
    { r with accuracyHistory := hist, recentUseTimestamps := uses }
    (qualityOf o) now
  { r2 with masteryState :=
      if 21 ≤ r2.intervalDays && lastThreeCorrect hist then .mastered
      else if hist.isEmpty then .new
      else .learning }

/-- Modelled from the spec: the progress tracker's
`recordAttempt(learnerId, itemId, outcome)` (§4.2); the backend tracker code
is not in the source tree.  Validation happens before any write, so a
failure returns the store untouched (all-or-nothing, §5, §7). -/
def recordAttempt (cat : List ℕ) (store : List ((ℕ × ℕ) × ProgressRecord))
    (l i : ℕ) (o : Outcome) (now : ℤ) :
    Option RecordError × List ((ℕ × ℕ) × ProgressRecord) :=
  if i ∈ cat then
    match o.accuracyScore with
    | some s =>
        if 100 < s then (some .invalidOutcome, store)
        else
          (none, saveRecord store l i
            (updatedRecord ((lookupRecord store l i).getD (freshRecord now)) o now))
    | none =>
        (none, saveRecord store l i
          (updatedRecord ((lookupRecord store l i).getD (freshRecord now)) o now))
  else (some .notFound, store)

/-- Modelled from the spec: kinds of detected conversation errors
(`kind ∈ {grammar, pronunciation}`, §3). -/
inductive ErrorKind
  | grammar
  | pronunciation
deriving DecidableEq, Repr

/-- Modelled from the spec: `DetectedError`, the ephemeral input of the
error-integration engine (§3).  Surface text is abstracted as a numeric
code. -/
structure DetectedError where
  sessionId : ℕ
  kind : ErrorKind
  sourceText : ℕ
  relatedItemId : Option ℕ
deriving DecidableEq, Repr

/-- Modelled from the spec: status of a corrective activity
(`status ∈ {pending, completed}`, §3). -/
inductive ActivityStatus
  | pending
  | completed
deriving DecidableEq, Repr

/-- Modelled from the spec: a persisted `CorrectiveActivity` (§3). -/
structure CorrectiveActivity where
  targetPillar : Pillar
  itemId : ℕ
  originSessionId : ℕ
  status : ActivityStatus
deriving DecidableEq, Repr

/-- Modelled from the spec: the corrective pillar targeted by a detected
error (grammar errors → grammar drills, pronunciation errors →
pronunciation drills, §2, §4.5). -/
def errorPillar (e : DetectedError) : Pillar :=
  match e.kind with
  | .grammar => .grammar
  | .pronunciation => .pronunciation

/-- Modelled from the spec: resolution of a buffered error to an item id —
use `relatedItemId` when present, else match the catalog by surface form,
else synthesize a deterministic minimal ad-hoc item descriptor (§4.5).  The
catalog is abstracted as a surface-form lookup. -/
def resolveItem (cat : ℕ → Option ℕ) (e : DetectedError) : ℕ :=
  match e.relatedItemId with
  | some i => i
  | none =>
      match cat e.sourceText with
      | some i => i
      | none => 1000000 + e.sourceText

/-- Modelled from the spec: the dedup test — is there already a `pending`
corrective activity for this (item, target pillar)? (§4.5). -/
def hasPendingFor (pend : List CorrectiveActivity) (item : ℕ) (p : Pillar) : Bool :=
  pend.any fun ca =>
    ca.status == ActivityStatus.pending && ca.itemId == item && ca.targetPillar == p

/-- Modelled from the spec: the finalization loop of the error-integration
engine (§4.5); the backend engine code is not in the source tree.  Each
buffered error is resolved; if a pending corrective activity for the same
(item, pillar) exists it is skipped, else one is created.  Returns the newly
created activities (in buffer order) and the updated pending store. -/
def integrate (cat : ℕ → Option ℕ) (sid : ℕ) :
    List CorrectiveActivity → List DetectedError →
      List CorrectiveActivity × List CorrectiveActivity
  | pend, [] => ([], pend)
  | pend, e :: es =>
      let item := resolveItem cat e
      let pill := errorPillar e
      if hasPendingFor pend item pill then integrate cat sid pend es
      else
        let ca : CorrectiveActivity :=
          { targetPillar := pill, itemId := item, originSessionId := sid,
            status := .pending }
        let r := integrate cat sid (ca :: pend) es
        (ca :: r.1, r.2)

/-- Modelled from the spec: `finalize(sessionId)` over the session's
buffered error list and the store of existing corrective activities (§4.5),
returning the newly created activities and the updated store. -/
def finalize (cat : ℕ → Option ℕ) (pend : List CorrectiveActivity) (sid : ℕ)
    (errs : List DetectedError) :
    List CorrectiveActivity × List CorrectiveActivity :=
  integrate cat sid pend errs

/-- Modelled from the spec: a sample due triggered vocabulary item
(used for concrete evaluation). -/
def sampleTrigger : TriggeredItem :=
  { itemId := 7, pillar := .vocabulary, trigger := .srs_due, nextReviewDate := 40 }

/-- Modelled from the spec: a sample record that is due for review
(used for concrete evaluation). -/
def sampleDue : ProgressRecord :=
  { easeFactor := 5 / 2, intervalDays := 4, nextReviewDate := 50,
    lastPracticedAt := 46, recentUseTimestamps := [99], accuracyHistory := [90],
    masteryState := .learning }

/-- Modelled from the spec: a sample record unused for more than 7 days
(used for concrete evaluation). -/
def sampleStale : ProgressRecord :=
  { easeFactor := 5 / 2, intervalDays := 30, nextReviewDate := 200,
    lastPracticedAt := 80, recentUseTimestamps := [80], accuracyHistory := [90],
    masteryState := .learning }

/-- Modelled from the spec: a sample record matching no trigger
(used for concrete evaluation). -/
def sampleHealthy : ProgressRecord :=
  { easeFactor := 5 / 2, intervalDays := 30, nextReviewDate := 200,
    lastPracticedAt := 99, recentUseTimestamps := [99], accuracyHistory := [95],
    masteryState := .mastered }

/-- Modelled from the spec: a sample learner record set keyed by item id
(used for concrete evaluation). -/
def sampleRecords : List (ℕ × ProgressRecord) :=
  [(1, sampleDue), (2, sampleStale), (3, sampleHealthy)]

end EngCore

namespace Frontend

/-- Embedded from `src/frontend/src/store/authSlice.ts` (schedule slice):
one scheduled review entry, restricted to the fields the reducers read. -/
structure Review where
  id : ℕ
  completed : Bool
  completedAt : Option ℤ
  estimatedMinutes : ℚ
deriving DecidableEq, Repr

/-- Embedded from `src/frontend/src/store/authSlice.ts`:
`dailyGoalProgress` of the daily schedule. -/
structure DailyGoalProgress where
  minutesStudied : ℚ
  activitiesCompleted : ℤ
  goalMinutes : ℚ
  percentageComplete : ℚ
deriving DecidableEq, Repr

/-- Embedded from `src/frontend/src/store/authSlice.ts`: the daily
schedule. -/
structure DailySchedule where
  scheduledReviews : List Review
  completedReviews : List Review
  dailyGoalProgress : DailyGoalProgress
deriving DecidableEq, Repr

/-- Embedded from `src/frontend/src/store/authSlice.ts`: the slice state,
restricted to the `todaySchedule` field that the three reducers under study
read and write. -/
structure ScheduleState where
  todaySchedule : Option DailySchedule
deriving DecidableEq, Repr

/-- Embedded from `src/frontend/src/store/authSlice.ts`: the percentage
update `Math.min((minutesStudied / goalMinutes) * 100, 100)` shared by the
three reducers. -/
def clampedPercentage (minutes goal : ℚ) : ℚ :=
  min (minutes / goal * 100) 100

/-- Embedded from `src/frontend/src/store/authSlice.ts`, reducer
`markReviewCompleted`: if a scheduled review with the given id exists, mark
it completed, move it to `completedReviews`, and accumulate the goal
progress with the clamped percentage; otherwise the state is unchanged. -/
def markReviewCompleted (st : ScheduleState) (reviewId : ℕ) (now : ℤ) :
    ScheduleState :=
  match st.todaySchedule with
  | none => st
  | some sch =>
      match sch.scheduledReviews.find? (fun r => r.id == reviewId) with
      | none => st
      | some r =>
          let r2 := { r with completed := true, completedAt := some now }
          let g := sch.dailyGoalProgress
          let minutes := g.minutesStudied + r.estimatedMinutes
          { todaySchedule := some (
            { scheduledReviews := sch.scheduledReviews.eraseP fun x => x.id == reviewId
              completedReviews := sch.completedReviews ++ [r2]
              dailyGoalProgress :=
                { g with
                  minutesStudied := minutes
                  activitiesCompleted := g.activitiesCompleted + 1
                  percentageComplete := clampedPercentage minutes g.goalMinutes } }) }

/-- Embedded from `src/frontend/src/store/authSlice.ts`, reducer
`updateGoalProgress`: accumulate payload minutes and activities and
recompute the clamped percentage. -/
def updateGoalProgress (st : ScheduleState) (minutes : ℚ) (activities : ℤ) :
    ScheduleState :=
  match st.todaySchedule with
  | none => st
  | some sch =>
      let g := sch.dailyGoalProgress
      let m := g.minutesStudied + minutes
      { todaySchedule := some (
        { sch with dailyGoalProgress :=
          { g with
            minutesStudied := m
            activitiesCompleted := g.activitiesCompleted + activities
            percentageComplete := clampedPercentage m g.goalMinutes } }) }

/-- Embedded from `src/frontend/src/store/authSlice.ts`, extra reducer
`completeReview.fulfilled`: overwrite the studied minutes and activity count
with the server's totals and recompute the clamped percentage. -/
def completeReviewFulfilled (st : ScheduleState) (todayMinutes : ℚ)
    (todayActivities : ℤ) : ScheduleState :=
  match st.todaySchedule with
  | none => st
  | some sch =>
      let g := sch.dailyGoalProgress
      { todaySchedule := some (
        { sch with dailyGoalProgress :=
          { g with
            minutesStudied := todayMinutes
            activitiesCompleted := todayActivities
            percentageComplete := clampedPercentage todayMinutes g.goalMinutes } }) }

/-- The displayed goal percentage of a schedule state (0 when no schedule is
loaded). -/
def statePercentage (st : ScheduleState) : ℚ :=
  match st.todaySchedule with
  | none => 0
  | some sch => sch.dailyGoalProgress.percentageComplete

/-- A concrete schedule whose stored percentage already exceeds 100 and
whose scheduled-review list is empty (used for concrete evaluation). -/
def overfullSchedule : DailySchedule :=
  { scheduledReviews := []
    completedReviews := []
    dailyGoalProgress :=
      { minutesStudied := 15, activitiesCompleted := 1, goalMinutes := 10,
        percentageComplete := 150 } }

/-- The state holding `overfullSchedule` (used for concrete evaluation). -/
def overfullState : ScheduleState := { todaySchedule := some overfullSchedule }

/-- A concrete well-formed schedule with one pending review
(used for concrete evaluation). -/
def sampleSchedule : DailySchedule :=
  { scheduledReviews :=
      [{ id := 1, completed := false, completedAt := none, estimatedMinutes := 3 }]
    completedReviews := []
    dailyGoalProgress :=
      { minutesStudied := 5, activitiesCompleted := 2, goalMinutes := 10,
        percentageComplete := 50 } }

/-- The state holding `sampleSchedule` (used for concrete evaluation). -/
def sampleState : ScheduleState := { todaySchedule := some sampleSchedule }

/-- Embedded from
`src/frontend/src/components/progress/WeeklyReport.tsx`,
`calculateAverageAccuracy`: keep the strictly positive values among the
three pillar accuracies and average them; 0 when none is positive. -/
def calculateAverageAccuracy (v g p : ℚ) : ℚ :=
  let values := [v, g, p].filter fun x => decide (0 < x)
  if 0 < values.length then values.sum / (values.length : ℚ) else 0

end Frontend

namespace EngCore

/-- `round` on `ℚ` is monotone. -/
theorem round_rat_mono {x y : ℚ} (h : x ≤ y) : round x ≤ round y := by
  rw [round_eq, round_eq]
  exact Int.floor_mono (by linarith)

/-- The ease factor produced by one SRS step is at least the 1.3 floor,
for every quality. -/
theorem efFloor_le_applyAttempt (r : ProgressRecord) (quality : ℕ) (now : ℤ) :
    efFloor ≤ (applyAttempt r quality now).easeFactor := by
  unfold applyAttempt nextState
  by_cases h : quality < 3 <;> simp [h]

/-- On a successful attempt from a record above the ease floor, the SRS
interval does not shrink. -/
theorem applyAttempt_interval_mono (r : ProgressRecord) (quality : ℕ) (now : ℤ)
    (hef : efFloor ≤ r.easeFactor) (hq : 3 ≤ quality) :
    r.intervalDays ≤ (applyAttempt r quality now).intervalDays := by
  unfold applyAttempt nextState
  have h3 : ¬ quality < 3 := by omega
  simp only [h3, if_false]
  by_cases h0 : r.intervalDays = 0
  · simp [h0]
  · by_cases h1 : r.intervalDays = 1
    · simp [h0, h1]
    · simp only [h0, h1, if_false]
      have hn : (r.intervalDays : ℚ) ≤ (r.intervalDays : ℚ) * r.easeFactor := by
        have hef1 : (1 : ℚ) ≤ r.easeFactor := le_trans (by norm_num [efFloor]) hef
        nlinarith [Nat.cast_nonneg (α := ℚ) r.intervalDays]
      have hr : (r.intervalDays : ℤ) ≤ round ((r.intervalDays : ℚ) * r.easeFactor) := by
        have := round_rat_mono hn
        rwa [round_natCast] at this
      calc r.intervalDays = ((r.intervalDays : ℤ)).toNat := by simp
        _ ≤ (round ((r.intervalDays : ℚ) * r.easeFactor)).toNat := Int.toNat_le_toNat hr

/-- The interval trace of a string of successes, chained below the starting
interval. -/
theorem interval_chain (r : ProgressRecord) (qs : List ℕ) (now : ℤ)
    (hef : efFloor ≤ r.easeFactor) (hq : ∀ q ∈ qs, 3 ≤ q) :
    List.Chain (· ≤ ·) r.intervalDays
      ((attemptStates r qs now).map ProgressRecord.intervalDays) := by
  induction qs generalizing r with
  | nil => exact List.Chain.nil
  | cons q rest ih =>
      simp only [attemptStates, List.map_cons]
      exact List.Chain.cons
        (applyAttempt_interval_mono r q now hef (hq q (by simp)))
        (ih (applyAttempt r q now) (efFloor_le_applyAttempt r q now)
          (fun p hp => hq p (by simp [hp])))

/-- The item ids surviving aggregation form a sublist of the input ids. -/
theorem aggregate_keys_sublist (records : List (ℕ × ProgressRecord)) (asOf : ℤ) :
    ((aggregateTriggers records asOf).map Prod.fst).Sublist
      (records.map Prod.fst) := by
  induction records with
  | nil => simp [aggregateTriggers]
  | cons p rest ih =>
      simp only [aggregateTriggers, List.filterMap_cons, List.map_cons]
      cases h : classify p.2 asOf with
      | none => simpa [h] using List.Sublist.cons p.1 ih
      | some t => simpa [h] using List.Sublist.cons₂ p.1 ih

/-- Membership in the aggregated trigger list, characterised. -/
theorem mem_aggregateTriggers {records : List (ℕ × ProgressRecord)} {asOf : ℤ}
    {i : ℕ} {t : Trigger} :
    (i, t) ∈ aggregateTriggers records asOf ↔
      ∃ r, (i, r) ∈ records ∧ classify r asOf = some t := by
  simp only [aggregateTriggers, List.mem_filterMap, Option.map_eq_some',
    Prod.mk.injEq]
  constructor
  · rintro ⟨⟨i', r⟩, hmem, t', hc, rfl, rfl⟩
    exact ⟨r, hmem, hc⟩
  · rintro ⟨r, hmem, hc⟩
    exact ⟨(i, r), hmem, t, hc, rfl, rfl⟩

/-- In a list of keyed pairs with no duplicate keys, a key determines the
value. -/
theorem keys_nodup_inj {β : Type} {l : List (ℕ × β)}
    (h : (l.map Prod.fst).Nodup) {i : ℕ} {r r' : β}
    (h1 : (i, r) ∈ l) (h2 : (i, r') ∈ l) : r = r' := by
  induction l with
  | nil => cases h1
  | cons p rest ih =>
      simp only [List.map_cons, List.nodup_cons] at h
      rcases List.mem_cons.mp h1 with e1 | m1 <;>
        rcases List.mem_cons.mp h2 with e2 | m2
      · exact congrArg Prod.snd (e1.trans e2.symm)
      · exact absurd (List.mem_map.mpr ⟨(i, r'), m2, by rw [← e1]⟩) h.1
      · exact absurd (List.mem_map.mpr ⟨(i, r), m1, by rw [← e2]⟩) h.1
      · exact ih h.2 m1 m2

/-- The dedup test is monotone under enlarging the pending store. -/
theorem hasPendingFor_mono {pend pend' : List CorrectiveActivity}
    (hsub : ∀ ca ∈ pend, ca ∈ pend') {i : ℕ} {p : Pillar}
    (h : hasPendingFor pend i p = true) : hasPendingFor pend' i p = true := by
  simp only [hasPendingFor, List.any_eq_true] at h ⊢
  obtain ⟨ca, hm, hp⟩ := h
  exact ⟨ca, hsub ca hm, hp⟩

/-- Finalization never removes an activity from the pending store. -/
theorem integrate_store_mono (cat : ℕ → Option ℕ) (sid : ℕ)
    (errs : List DetectedError) (pend : List CorrectiveActivity)
    {ca : CorrectiveActivity} (h : ca ∈ pend) :
    ca ∈ (integrate cat sid pend errs).2 := by
  induction errs generalizing pend with
  | nil => simpa [integrate] using h
  | cons e es ih =>
      simp only [integrate]
      by_cases hp : hasPendingFor pend (resolveItem cat e) (errorPillar e) = true
      · simpa [hp] using ih pend h
      · simpa [hp] using ih _ (List.mem_cons_of_mem _ h)

/-- After finalization, every buffered error has a pending corrective
activity for its (item, pillar) in the resulting store. -/
theorem integrate_covers (cat : ℕ → Option ℕ) (sid : ℕ)
    (errs : List DetectedError) (pend : List CorrectiveActivity)
    {e : DetectedError} (he : e ∈ errs) :
    hasPendingFor (integrate cat sid pend errs).2 (resolveItem cat e)
      (errorPillar e) = true := by
  induction errs generalizing pend with
  | nil => cases he
  | cons e' es ih =>
      simp only [integrate]
      by_cases hp : hasPendingFor pend (resolveItem cat e') (errorPillar e') = true
      · rcases List.mem_cons.mp he with rfl | hes
        · simp only [hp, if_true]
          exact hasPendingFor_mono
            (fun ca hca => integrate_store_mono cat sid es pend hca) hp
        · simpa [hp] using ih pend hes
      · rcases List.mem_cons.mp he with rfl | hes
        · simp only [hp, if_false, Bool.false_eq_true]
          exact hasPendingFor_mono
            (fun ca hca => integrate_store_mono cat sid es _ hca)
            (by simp [hasPendingFor])
        · simpa [hp] using ih _ hes

/-- When every buffered error is already absorbed by a pending activity,
finalization creates nothing and leaves the store unchanged. -/
theorem integrate_absorbed (cat : ℕ → Option ℕ) (sid : ℕ)
    (errs : List DetectedError) (pend : List CorrectiveActivity)
    (h : ∀ e ∈ errs,
      hasPendingFor pend (resolveItem cat e) (errorPillar e) = true) :
    integrate cat sid pend errs = ([], pend) := by
  induction errs with
  | nil => simp [integrate]
  | cons e es ih =>
      have hp := h e (by simp)
      simp only [integrate, hp, if_true]
      exact ih fun e' he' => h e' (by simp [he'])

/-- `nextState` on a failed attempt: the interval is exactly 1. -/
theorem nextState_fail_interval (r : ProgressRecord) (quality : ℕ) (now : ℤ)
    (h : quality < 3) : (nextState r quality now).intervalDays = 1 := by
  simp [nextState, h]

end EngCore

/-- C1: for every `ProgressRecord` and every quality signal strictly below 3,
the SRS engine's `nextState` returns `intervalDays = 1`, regardless of the
record's prior interval. -/
theorem C1_fail_resets_interval (r : EngCore.ProgressRecord) (quality : ℕ) (now : ℤ)
    (h : quality < 3) :
    (EngCore.nextState r quality now).intervalDays = 1 :=
  EngCore.nextState_fail_interval r quality now h

/-- C1 witness: a concrete record with prior interval 17, quality 2. -/
theorem C1_fail_resets_interval_witness :
    (2 : ℕ) < 3 ∧
      (EngCore.nextState
        { easeFactor := 5 / 2, intervalDays := 17, nextReviewDate := 0,
          lastPracticedAt := 0, recentUseTimestamps := [], accuracyHistory := [],
          masteryState := .learning } 2 0).intervalDays = 1 :=
  ⟨by decide,
    C1_fail_resets_interval
      { easeFactor := 5 / 2, intervalDays := 17, nextReviewDate := 0,
        lastPracticedAt := 0, recentUseTimestamps := [], accuracyHistory := [],
        masteryState := .learning } 2 0 (by decide)⟩

/-- C2: starting from a record with `easeFactor ≥ 1.3`, after any finite
sequence of attempts of qualities 0–5 applied through `nextState`, the
ease factor is still at least 1.3. -/
theorem C2_easeFactor_floor (r : EngCore.ProgressRecord) (qs : List ℕ) (now : ℤ)
    (hef : EngCore.efFloor ≤ r.easeFactor) (_hq : ∀ q ∈ qs, q ≤ 5) :
    EngCore.efFloor ≤ (EngCore.applyAttempts r qs now).easeFactor := by
  clear _hq
  induction qs generalizing r with
  | nil => exact hef
  | cons q rest ih =>
      exact ih (EngCore.applyAttempt r q now)
        (EngCore.efFloor_le_applyAttempt r q now)

/-- C2 witness: a concrete record with ease factor 1.3 and a punishing
attempt history of qualities 0, 0, 1, 5, 2. -/
theorem C2_easeFactor_floor_witness :
    EngCore.efFloor ≤ (13 / 10 : ℚ) ∧ (∀ q ∈ [0, 0, 1, 5, 2], q ≤ 5) ∧
      EngCore.efFloor ≤
        (EngCore.applyAttempts
          { easeFactor := 13 / 10, intervalDays := 3, nextReviewDate := 0,
            lastPracticedAt := 0, recentUseTimestamps := [], accuracyHistory := [],
            masteryState := .learning } [0, 0, 1, 5, 2] 0).easeFactor :=
  ⟨le_refl _, by decide,
    C2_easeFactor_floor
      { easeFactor := 13 / 10, intervalDays := 3, nextReviewDate := 0,
        lastPracticedAt := 0, recentUseTimestamps := [], accuracyHistory := [],
        masteryState := .learning } [0, 0, 1, 5, 2] 0 (le_refl _) (by decide)⟩

/-- C3: starting from a valid record (`easeFactor ≥ 1.3`), a sequence of
consecutive attempts all of quality at least 3 yields, through `nextState`,
a non-decreasing sequence of `intervalDays` values. -/
theorem C3_success_intervals_monotone (r : EngCore.ProgressRecord) (qs : List ℕ)
    (now : ℤ) (hef : EngCore.efFloor ≤ r.easeFactor) (hq : ∀ q ∈ qs, 3 ≤ q) :
    List.Chain' (· ≤ ·)
      ((EngCore.attemptStates r qs now).map EngCore.ProgressRecord.intervalDays) := by
  have h := EngCore.interval_chain r qs now hef hq
  cases hl : (EngCore.attemptStates r qs now).map EngCore.ProgressRecord.intervalDays with
  | nil => simp
  | cons a t =>
      rw [hl, List.chain_cons] at h
      exact h.2

/-- C3 witness: a fresh record (interval 0, ease 2.5) under the success
history 4, 3, 5, 5. -/
theorem C3_success_intervals_monotone_witness :
    EngCore.efFloor ≤ (5 / 2 : ℚ) ∧ (∀ q ∈ [4, 3, 5, 5], 3 ≤ q) ∧
      List.Chain' (· ≤ ·)
        ((EngCore.attemptStates
          { easeFactor := 5 / 2, intervalDays := 0, nextReviewDate := 0,
            lastPracticedAt := 0, recentUseTimestamps := [], accuracyHistory := [],
            masteryState := .new } [4, 3, 5, 5] 0).map
          EngCore.ProgressRecord.intervalDays) :=
  ⟨by norm_num [EngCore.efFloor], by decide,
    C3_success_intervals_monotone
      { easeFactor := 5 / 2, intervalDays := 0, nextReviewDate := 0,
        lastPracticedAt := 0, recentUseTimestamps := [], accuracyHistory := [],
        masteryState := .new } [4, 3, 5, 5] 0 (by norm_num [EngCore.efFloor])
      (by decide)⟩

/-- C4: for a learner record set with distinct item ids, the trigger
aggregator emits at most one trigger per item (no duplicate ids in the
output); an item satisfying several conditions is reported only under the
highest-precedence one (`srs_due` > `low_frequency` > `low_accuracy`); and an
item satisfying no condition is absent from the output. -/
theorem C4_aggregator_unique_precedence
    (records : List (ℕ × EngCore.ProgressRecord)) (asOf : ℤ)
    (hnd : (records.map Prod.fst).Nodup) :
    ((EngCore.aggregateTriggers records asOf).map Prod.fst).Nodup ∧
    (∀ i r, (i, r) ∈ records → EngCore.isDue r asOf = true →
      (i, EngCore.Trigger.srs_due) ∈ EngCore.aggregateTriggers records asOf) ∧
    (∀ i r, (i, r) ∈ records → EngCore.isDue r asOf = false →
      EngCore.isLowFrequency r asOf = true →
      (i, EngCore.Trigger.low_frequency) ∈ EngCore.aggregateTriggers records asOf) ∧
    (∀ i r, (i, r) ∈ records → EngCore.isDue r asOf = false →
      EngCore.isLowFrequency r asOf = false → EngCore.isLowAccuracy r = true →
      (i, EngCore.Trigger.low_accuracy) ∈ EngCore.aggregateTriggers records asOf) ∧
    (∀ i r, (i, r) ∈ records → EngCore.isDue r asOf = false →
      EngCore.isLowFrequency r asOf = false → EngCore.isLowAccuracy r = false →
      ∀ t, (i, t) ∉ EngCore.aggregateTriggers records asOf) := by
  refine ⟨hnd.sublist (EngCore.aggregate_keys_sublist records asOf), ?_, ?_, ?_, ?_⟩
  · intro i r hm hdue
    exact EngCore.mem_aggregateTriggers.mpr ⟨r, hm, by simp [EngCore.classify, hdue]⟩
  · intro i r hm hdue hlf
    exact EngCore.mem_aggregateTriggers.mpr
      ⟨r, hm, by simp [EngCore.classify, hdue, hlf]⟩
  · intro i r hm hdue hlf hla
    exact EngCore.mem_aggregateTriggers.mpr
      ⟨r, hm, by simp [EngCore.classify, hdue, hlf, hla]⟩
  · intro i r hm hdue hlf hla t ht
    obtain ⟨r', hm', hc'⟩ := EngCore.mem_aggregateTriggers.mp ht
    rw [EngCore.keys_nodup_inj hnd hm' hm] at hc'
    simp [EngCore.classify, hdue, hlf, hla] at hc'

/-- C4 witness: three sample records (due, stale, healthy) with distinct
item ids; the aggregated output has no duplicate item id. -/
theorem C4_aggregator_unique_precedence_witness :
    ((EngCore.sampleRecords.map Prod.fst).Nodup) ∧
      ((EngCore.aggregateTriggers EngCore.sampleRecords 100).map Prod.fst).Nodup :=
  ⟨by decide,
    (C4_aggregator_unique_precedence EngCore.sampleRecords 100 (by decide)).1⟩

/-- C5: the daily schedule builder is deterministic in its inputs — two
invocations of `build` with the same trigger set, daily goal minutes and
new-item supplier return identical ordered lists.  In this embedding `build`
is a pure function of exactly those inputs, so re-invocation stability is
definitional. -/
theorem C5_build_idempotent (triggers : List EngCore.TriggeredItem)
    (dailyGoalMinutes : ℕ) (newItems : List (ℕ × EngCore.Pillar)) :
    EngCore.build triggers dailyGoalMinutes newItems =
      EngCore.build triggers dailyGoalMinutes newItems := rfl

/-- C6 counterexample: with `dailyGoalMinutes = 0` and a single due
vocabulary trigger (estimated 2 minutes, which exceeds the whole budget of
0), `build` returns the empty list, so the sole candidate is NOT included —
the claim's unconditional inclusion clause fails at zero budget. -/
theorem C6_zero_budget_counterexample :
    0 < (EngCore.toScheduled EngCore.sampleTrigger).estimatedMinutes ∧
      EngCore.toScheduled EngCore.sampleTrigger ∉
        EngCore.build [EngCore.sampleTrigger] 0 [] := by decide

/-- C6 (amended): `build` with a zero budget always returns the empty list;
and with a positive budget, a single triggered item whose estimated minutes
exceed the entire budget is still included rather than dropped. -/
theorem C6_overflow_item_kept (x : EngCore.TriggeredItem) (budget : ℕ)
    (newItems : List (ℕ × EngCore.Pillar)) :
    (∀ (triggers : List EngCore.TriggeredItem)
        (items : List (ℕ × EngCore.Pillar)), EngCore.build triggers 0 items = []) ∧
    (0 < budget → budget < EngCore.pillarMinutes x.pillar →
      EngCore.toScheduled x ∈ EngCore.build [x] budget newItems) := by
  constructor
  · intro triggers items
    simp [EngCore.build]
  · intro hb _hover
    have hb0 : ¬ budget = 0 := by omega
    simp [EngCore.build, hb0, EngCore.sortTriggers, EngCore.insertSorted]

/-- C6 witness: budget 1 minute, one due vocabulary trigger costing 2
minutes; it is still scheduled. -/
theorem C6_overflow_item_kept_witness :
    0 < 1 ∧ 1 < EngCore.pillarMinutes EngCore.sampleTrigger.pillar ∧
      EngCore.toScheduled EngCore.sampleTrigger ∈
        EngCore.build [EngCore.sampleTrigger] 1 [] :=
  ⟨by decide, by decide,
    (C6_overflow_item_kept EngCore.sampleTrigger 1 []).2 (by decide) (by decide)⟩

/-- C7: finalizing the same conversation session a second time, over the
same buffered error list and the store produced by the first finalization,
creates no new corrective activities — the second call returns an empty
creation list. -/
theorem C7_finalize_idempotent (cat : ℕ → Option ℕ)
    (pend : List EngCore.CorrectiveActivity) (sid : ℕ)
    (errs : List EngCore.DetectedError) :
    (EngCore.finalize cat (EngCore.finalize cat pend sid errs).2 sid errs).1 = [] := by
  unfold EngCore.finalize
  rw [EngCore.integrate_absorbed]
  intro e he
  exact EngCore.integrate_covers cat sid errs pend he

/-- C8: if `recordAttempt` fails with any error, the stored progress record
for that (learner, item) is unchanged — writes are all-or-nothing. -/
theorem C8_recordAttempt_atomic (cat : List ℕ)
    (store : List ((ℕ × ℕ) × EngCore.ProgressRecord)) (l i : ℕ)
    (o : EngCore.Outcome) (now : ℤ) (e : EngCore.RecordError)
    (h : (EngCore.recordAttempt cat store l i o now).1 = some e) :
    EngCore.lookupRecord (EngCore.recordAttempt cat store l i o now).2 l i =
      EngCore.lookupRecord store l i := by
  unfold EngCore.recordAttempt at h ⊢
  by_cases hc : i ∈ cat
  · simp only [hc, if_true] at h ⊢
    cases hs : o.accuracyScore with
    | none => simp [hs] at h
    | some s =>
        simp only [hs] at h ⊢
        by_cases hv : 100 < s
        · simp [hv]
        · simp [hv] at h
  · simp [hc]

/-- C8 witness: the item 2 is not in the catalog `[1]`; the call fails with
`notFound` and the stored record of learner 0 for item 2 is untouched. -/
theorem C8_recordAttempt_atomic_witness :
    (EngCore.recordAttempt [1] [((0, 2), EngCore.freshRecord 0)] 0 2
        { correct := true, accuracyScore := none } 5).1 =
      some EngCore.RecordError.notFound ∧
    EngCore.lookupRecord
        (EngCore.recordAttempt [1] [((0, 2), EngCore.freshRecord 0)] 0 2
          { correct := true, accuracyScore := none } 5).2 0 2 =
      EngCore.lookupRecord [((0, 2), EngCore.freshRecord 0)] 0 2 :=
  ⟨by decide,
    C8_recordAttempt_atomic [1] [((0, 2), EngCore.freshRecord 0)] 0 2
      { correct := true, accuracyScore := none } 5 EngCore.RecordError.notFound
      (by decide)⟩

/-- C9 counterexample: a state whose schedule is present, whose goal is 10
minutes (positive), but whose stored `percentageComplete` is already 150;
`markReviewCompleted` with a review id absent from `scheduledReviews` leaves
the state unchanged, so the resulting percentage is 150 > 100 — the claim as
stated fails. -/
theorem C9_overfull_counterexample :
    Frontend.overfullState.todaySchedule = some Frontend.overfullSchedule ∧
    0 < Frontend.overfullSchedule.dailyGoalProgress.goalMinutes ∧
    ¬ Frontend.statePercentage
        (Frontend.markReviewCompleted Frontend.overfullState 1 0) ≤ 100 := by
  refine ⟨rfl, by norm_num [Frontend.overfullSchedule], ?_⟩
  norm_num [Frontend.statePercentage, Frontend.markReviewCompleted,
    Frontend.overfullState, Frontend.overfullSchedule, List.find?]

/-- C9 (amended): for every schedule state whose `todaySchedule` is present,
whose `goalMinutes` is positive, and whose stored `percentageComplete` is at
most 100, applying any of `markReviewCompleted`, `updateGoalProgress` or the
`completeReview.fulfilled` handler yields `percentageComplete ≤ 100`.
(The extra premise is needed only for `markReviewCompleted` with an absent
review id, which leaves the state unchanged.) -/
theorem C9_percentage_clamped (st : Frontend.ScheduleState)
    (sch : Frontend.DailySchedule) (hs : st.todaySchedule = some sch)
    (_hg : 0 < sch.dailyGoalProgress.goalMinutes)
    (hprior : sch.dailyGoalProgress.percentageComplete ≤ 100)
    (reviewId : ℕ) (now : ℤ) (minutes todayMinutes : ℚ)
    (activities todayActivities : ℤ) :
    Frontend.statePercentage (Frontend.markReviewCompleted st reviewId now) ≤ 100 ∧
    Frontend.statePercentage (Frontend.updateGoalProgress st minutes activities) ≤ 100 ∧
    Frontend.statePercentage
      (Frontend.completeReviewFulfilled st todayMinutes todayActivities) ≤ 100 := by
  clear _hg
  obtain ⟨ts⟩ := st
  simp only at hs
  subst hs
  refine ⟨?_, ?_, ?_⟩
  · simp only [Frontend.markReviewCompleted]
    cases hf : sch.scheduledReviews.find? (fun r => r.id == reviewId) with
    | none => simpa [Frontend.statePercentage] using hprior
    | some r =>
        simp [Frontend.statePercentage, Frontend.clampedPercentage]
  · simp [Frontend.updateGoalProgress, Frontend.statePercentage,
      Frontend.clampedPercentage]
  · simp [Frontend.completeReviewFulfilled, Frontend.statePercentage,
      Frontend.clampedPercentage]

/-- C9 witness: the sample state (goal 10 minutes, 50% complete, one pending
review of 3 minutes) under all three reducers. -/
theorem C9_percentage_clamped_witness :
    Frontend.sampleState.todaySchedule = some Frontend.sampleSchedule ∧
    0 < Frontend.sampleSchedule.dailyGoalProgress.goalMinutes ∧
    Frontend.sampleSchedule.dailyGoalProgress.percentageComplete ≤ 100 ∧
    (Frontend.statePercentage
        (Frontend.markReviewCompleted Frontend.sampleState 1 0) ≤ 100 ∧
      Frontend.statePercentage
        (Frontend.updateGoalProgress Frontend.sampleState 4 1) ≤ 100 ∧
      Frontend.statePercentage
        (Frontend.completeReviewFulfilled Frontend.sampleState 8 3) ≤ 100) :=
  ⟨rfl, by norm_num [Frontend.sampleSchedule], by norm_num [Frontend.sampleSchedule],
    C9_percentage_clamped Frontend.sampleState Frontend.sampleSchedule rfl
      (by norm_num [Frontend.sampleSchedule]) (by norm_num [Frontend.sampleSchedule])
      1 0 4 8 1 3⟩

/-- C10: `calculateAverageAccuracy` returns the arithmetic mean of exactly
the strictly positive pillar accuracies, and 0 when none of the three is
strictly positive — fully case-analysed over the signs of the three
inputs. -/
theorem C10_average_positive_pillars (v g p : ℚ) :
    (0 < v → 0 < g → 0 < p →
      Frontend.calculateAverageAccuracy v g p = (v + g + p) / 3) ∧
    (0 < v → 0 < g → p ≤ 0 →
      Frontend.calculateAverageAccuracy v g p = (v + g) / 2) ∧
    (0 < v → g ≤ 0 → 0 < p →
      Frontend.calculateAverageAccuracy v g p = (v + p) / 2) ∧
    (0 < v → g ≤ 0 → p ≤ 0 →
      Frontend.calculateAverageAccuracy v g p = v) ∧
    (v ≤ 0 → 0 < g → 0 < p →
      Frontend.calculateAverageAccuracy v g p = (g + p) / 2) ∧
    (v ≤ 0 → 0 < g → p ≤ 0 →
      Frontend.calculateAverageAccuracy v g p = g) ∧
    (v ≤ 0 → g ≤ 0 → 0 < p →
      Frontend.calculateAverageAccuracy v g p = p) ∧
    (v ≤ 0 → g ≤ 0 → p ≤ 0 →
      Frontend.calculateAverageAccuracy v g p = 0) := by
  refine ⟨?_, ?_, ?_, ?_, ?_, ?_, ?_, ?_⟩ <;> intro h1 h2 h3 <;>
    simp only [Frontend.calculateAverageAccuracy, List.filter]
  · simp only [decide_eq_true h1, decide_eq_true h2, decide_eq_true h3]
    norm_num
    try ring_nf
  · simp only [decide_eq_true h1, decide_eq_true h2,
      decide_eq_false (not_lt.mpr h3)]
    norm_num
    try ring_nf
  · simp only [decide_eq_true h1, decide_eq_false (not_lt.mpr h2),
      decide_eq_true h3]
    norm_num
    try ring_nf
  · simp only [decide_eq_true h1, decide_eq_false (not_lt.mpr h2),
      decide_eq_false (not_lt.mpr h3)]
    norm_num
  · simp only [decide_eq_false (not_lt.mpr h1), decide_eq_true h2,
      decide_eq_true h3]
    norm_num
    try ring_nf
  · simp only [decide_eq_false (not_lt.mpr h1), decide_eq_true h2,
      decide_eq_false (not_lt.mpr h3)]
    norm_num
  · simp only [decide_eq_false (not_lt.mpr h1),
      decide_eq_false (not_lt.mpr h2), decide_eq_true h3]
    norm_num
  · simp only [decide_eq_false (not_lt.mpr h1),
      decide_eq_false (not_lt.mpr h2), decide_eq_false (not_lt.mpr h3)]
    norm_num

/-- C10 witness: accuracies 50, 0, 30 — the zero grammar pillar is excluded
and the displayed average is 40. -/
theorem C10_average_positive_pillars_witness :
    (0 : ℚ) < 50 ∧ (0 : ℚ) ≤ 0 ∧ (0 : ℚ) < 30 ∧
      Frontend.calculateAverageAccuracy 50 0 30 = 40 :=
  ⟨by norm_num, le_refl 0, by norm_num,
    by
      have h := (C10_average_positive_pillars 50 0 30).2.2.1
        (by norm_num) (le_refl 0) (by norm_num)
      rw [h]; norm_num⟩
